import Mathlib

set_option linter.unusedVariables false

/-!
Verification of the Veridex cross-chain escrow settlement engine.

Shallow embedding of `src/contracts/CrossChainEscrow.sol`
(contract `VeridexCrossChainEscrow`, Solidity 0.8, checked arithmetic).

Modelling conventions:
- Addresses, tokens and chain ids are `Nat`; address `0` is the zero
  address, so `token = 0` means the native asset and an escrow whose
  `seller` is `0` is the mapping's "not found" default.
- `uint256` arithmetic is `Nat` with an explicit `< 2 ^ 256` bound where
  the source can overflow; a Solidity 0.8 overflow revert is modelled as
  the error `ArithmeticOverflow`.
- External token/native transfers are modelled as succeeding; each
  successful call returns the list of transfers pulled in (`moneyIn`) and
  paid out (`moneyOut`) instead of mutating balances.
- Every mutating entry point takes `caller` (= `msg.sender`), `now`
  (= `block.timestamp`), and for the payable deposits `value`
  (= `msg.value`), and returns `Except EscrowError Outcome`; a revert
  leaves the record unchanged, which the `Except` shape captures.
-/

/-- Escrow status, mirroring `enum EscrowStatus` of the source. -/
inductive EscrowStatus where
  | Created
  | SellerDeposited
  | BuyerDeposited
  | FullyFunded
  | SellerConfirmed
  | BuyerConfirmed
  | Completed
  | Disputed
  | Cancelled
  | Refunded
deriving DecidableEq, Repr

/-- Typed revert reasons, mirroring the source's custom errors.
`ArithmeticOverflow` models the Solidity 0.8 checked-arithmetic panic. -/
inductive EscrowError where
  | EscrowNotFound
  | NotParticipant
  | InvalidStatus
  | EscrowExpired
  | AlreadyDeposited
  | AlreadyConfirmed
  | InsufficientDeposit
  | InvalidVAA
  | WrongChain
  | TransferFailed
  | ArithmeticOverflow
deriving DecidableEq, Repr

/-- One asset movement: `recipient` gains (for `moneyOut`) or provides
(for `moneyIn`) `amount` units of `token` (`token = 0` is native). -/
structure Transfer where
  recipient : Nat
  token : Nat
  amount : Nat
deriving DecidableEq, Repr

/-- Escrow record, mirroring `struct Escrow` of the source. -/
structure Escrow where
  escrowId : Nat
  seller : Nat
  buyer : Nat
  sellerToken : Nat
  sellerAmount : Nat
  sellerDeposited : Bool
  sellerConfirmed : Bool
  buyerToken : Nat
  buyerAmount : Nat
  buyerDeposited : Bool
  buyerConfirmed : Bool
  sellerChainId : Nat
  buyerChainId : Nat
  sellerEmitter : Nat
  buyerEmitter : Nat
  createdAt : Nat
  expiresAt : Nat
  completedAt : Nat
  status : EscrowStatus
  disputeResolver : Nat
  disputeReason : String
deriving DecidableEq, Repr

/-- Contract-level storage read by the escrow operations. In the source
these are storage variables without setters: `protocolFee = 25` basis
points, `defaultDuration = 7 days`, `feeRecipient` and `thisChainId` set
in the constructor. -/
structure Config where
  protocolFee : Nat
  feeRecipient : Nat
  defaultDuration : Nat
  thisChainId : Nat
deriving DecidableEq, Repr

/-- First value outside the EVM word range: Solidity 0.8 checked
arithmetic reverts as soon as a result would reach it. -/
def UINT256 : Nat := 2 ^ 256

/-- Result of a successful mutating call: the updated record, the assets
pulled into the contract (`moneyIn`, whose first entry for a payable call
is the full attached native value), and the assets paid out (`moneyOut`). -/
structure Outcome where
  esc : Escrow
  moneyIn : List Transfer
  moneyOut : List Transfer
deriving DecidableEq, Repr

/-- The transfers emitted by a successful `_releaseAsset(recipient, token,
amount)`: `amount - fee` to `recipient` and, when positive, the protocol
fee to the fee recipient. -/
def payoutTransfers (cfg : Config) (recipient token amount : Nat) : List Transfer :=
  Transfer.mk recipient token (amount - amount * cfg.protocolFee / 10000) ::
    (if 0 < amount * cfg.protocolFee / 10000 then
      [Transfer.mk cfg.feeRecipient token (amount * cfg.protocolFee / 10000)]
    else [])

/-- `_releaseAsset`: computes `fee = amount * protocolFee / 10000` and
`recipientAmount = amount - fee` with checked arithmetic, then performs
the two transfers (modelled as succeeding). -/
def releaseAsset (cfg : Config) (recipient token amount : Nat) :
    Except EscrowError (List Transfer) :=
  if amount * cfg.protocolFee < UINT256 then
    if amount * cfg.protocolFee / 10000 ≤ amount then
      Except.ok (payoutTransfers cfg recipient token amount)
    else Except.error EscrowError.ArithmeticOverflow
  else Except.error EscrowError.ArithmeticOverflow

/-- The status `_updateStatus` derives from the deposit/confirm flags
(the final `else` leaves the stored status in place, as the source's
if-chain falls through without assigning). -/
def newStatus (e : Escrow) : EscrowStatus :=
  if e.sellerDeposited ∧ e.buyerDeposited then
    if e.sellerConfirmed ∧ e.buyerConfirmed then EscrowStatus.Completed
    else if e.sellerConfirmed then EscrowStatus.SellerConfirmed
    else if e.buyerConfirmed then EscrowStatus.BuyerConfirmed
    else EscrowStatus.FullyFunded
  else if e.sellerDeposited then EscrowStatus.SellerDeposited
  else if e.buyerDeposited then EscrowStatus.BuyerDeposited
  else e.status

/-- `_updateStatus`: recompute `status` from the deposit/confirm flags. -/
def updateStatus (e : Escrow) : Escrow :=
  { e with status := newStatus e }

/-- The release `_tryComplete` performs for the seller's leg when it is
hosted on this chain: the seller's asset is paid out to the buyer. -/
def sellerLegPayout (cfg : Config) (e : Escrow) :
    Except EscrowError (List Transfer) :=
  if e.sellerChainId = cfg.thisChainId then
    releaseAsset cfg e.buyer e.sellerToken e.sellerAmount
  else Except.ok []

/-- The release `_tryComplete` performs for the buyer's leg when it is
hosted on this chain: the buyer's asset is paid out to the seller. -/
def buyerLegPayout (cfg : Config) (e : Escrow) :
    Except EscrowError (List Transfer) :=
  if e.buyerChainId = cfg.thisChainId then
    releaseAsset cfg e.seller e.buyerToken e.buyerAmount
  else Except.ok []

/-- `_tryComplete`: when both parties have confirmed, release each
locally-hosted leg to the counterparty, set `status = Completed` and
`completedAt = now`. -/
def tryComplete (cfg : Config) (e : Escrow) (now : Nat) :
    Except EscrowError (Escrow × List Transfer) :=
  if e.sellerConfirmed ∧ e.buyerConfirmed then
    match sellerLegPayout cfg e, buyerLegPayout cfg e with
    | Except.ok t1, Except.ok t2 =>
        Except.ok
          ({ e with status := EscrowStatus.Completed, completedAt := now },
           t1 ++ t2)
    | Except.error err, _ => Except.error err
    | _, Except.error err => Except.error err
  else Except.ok (e, [])

/-- `sellerDeposit(escrowId)`, payable. The native branch keeps the whole
attached `value` (first `moneyIn` entry) and only checks
`value ≥ sellerAmount`; the token branch pulls exactly `sellerAmount`. -/
def sellerDeposit (cfg : Config) (e : Escrow) (caller value now : Nat) :
    Except EscrowError Outcome :=
  if e.seller = 0 then Except.error EscrowError.EscrowNotFound
  else if caller ≠ e.seller then Except.error EscrowError.NotParticipant
  else if e.sellerDeposited then Except.error EscrowError.AlreadyDeposited
  else if e.expiresAt < now then Except.error EscrowError.EscrowExpired
  else if e.sellerChainId ≠ cfg.thisChainId then Except.error EscrowError.WrongChain
  else if e.sellerToken = 0 then
    if value < e.sellerAmount then Except.error EscrowError.InsufficientDeposit
    else
      Except.ok (Outcome.mk (updateStatus { e with sellerDeposited := true })
        [Transfer.mk caller 0 value] [])
  else
    Except.ok (Outcome.mk (updateStatus { e with sellerDeposited := true })
      [Transfer.mk caller 0 value, Transfer.mk caller e.sellerToken e.sellerAmount] [])

/-- `buyerDeposit(escrowId)`, payable; symmetric to `sellerDeposit`. -/
def buyerDeposit (cfg : Config) (e : Escrow) (caller value now : Nat) :
    Except EscrowError Outcome :=
  if e.buyer = 0 then Except.error EscrowError.EscrowNotFound
  else if caller ≠ e.buyer then Except.error EscrowError.NotParticipant
  else if e.buyerDeposited then Except.error EscrowError.AlreadyDeposited
  else if e.expiresAt < now then Except.error EscrowError.EscrowExpired
  else if e.buyerChainId ≠ cfg.thisChainId then Except.error EscrowError.WrongChain
  else if e.buyerToken = 0 then
    if value < e.buyerAmount then Except.error EscrowError.InsufficientDeposit
    else
      Except.ok (Outcome.mk (updateStatus { e with buyerDeposited := true })
        [Transfer.mk caller 0 value] [])
  else
    Except.ok (Outcome.mk (updateStatus { e with buyerDeposited := true })
      [Transfer.mk caller 0 value, Transfer.mk caller e.buyerToken e.buyerAmount] [])

/-- `sellerConfirm(escrowId)`. Note that the source only accepts
status `FullyFunded` here, unlike `buyerConfirm`. -/
def sellerConfirm (cfg : Config) (e : Escrow) (caller now : Nat) :
    Except EscrowError Outcome :=
  if e.seller = 0 then Except.error EscrowError.EscrowNotFound
  else if caller ≠ e.seller then Except.error EscrowError.NotParticipant
  else if e.sellerConfirmed then Except.error EscrowError.AlreadyConfirmed
  else if e.status ≠ EscrowStatus.FullyFunded then Except.error EscrowError.InvalidStatus
  else
    match tryComplete cfg (updateStatus { e with sellerConfirmed := true }) now with
    | Except.ok (e2, ts) => Except.ok (Outcome.mk e2 [] ts)
    | Except.error err => Except.error err

/-- `buyerConfirm(escrowId)`: accepted from `FullyFunded` or
`SellerConfirmed`. -/
def buyerConfirm (cfg : Config) (e : Escrow) (caller now : Nat) :
    Except EscrowError Outcome :=
  if e.buyer = 0 then Except.error EscrowError.EscrowNotFound
  else if caller ≠ e.buyer then Except.error EscrowError.NotParticipant
  else if e.buyerConfirmed then Except.error EscrowError.AlreadyConfirmed
  else if e.status ≠ EscrowStatus.FullyFunded ∧
          e.status ≠ EscrowStatus.SellerConfirmed then
    Except.error EscrowError.InvalidStatus
  else
    match tryComplete cfg (updateStatus { e with buyerConfirmed := true }) now with
    | Except.ok (e2, ts) => Except.ok (Outcome.mk e2 [] ts)
    | Except.error err => Except.error err

/-- The refund block shared verbatim by `cancel` and `refundExpired`:
each deposited, locally-hosted leg is released back to its depositor. -/
def refundLegs (cfg : Config) (e : Escrow) : Except EscrowError (List Transfer) :=
  match (if e.sellerDeposited ∧ e.sellerChainId = cfg.thisChainId then
          releaseAsset cfg e.seller e.sellerToken e.sellerAmount
        else Except.ok []),
        (if e.buyerDeposited ∧ e.buyerChainId = cfg.thisChainId then
          releaseAsset cfg e.buyer e.buyerToken e.buyerAmount
        else Except.ok []) with
  | Except.ok t1, Except.ok t2 => Except.ok (t1 ++ t2)
  | Except.error err, _ => Except.error err
  | _, Except.error err => Except.error err

/-- `cancel(escrowId)`: participant-only; rejected exactly when the status
is `FullyFunded` or `Completed`; refunds deposited local legs and sets
`status = Cancelled`. The source reads neither `msg.value` nor
`block.timestamp` here. -/
def cancel (cfg : Config) (e : Escrow) (caller now : Nat) :
    Except EscrowError Outcome :=
  if e.seller = 0 then Except.error EscrowError.EscrowNotFound
  else if caller ≠ e.seller ∧ caller ≠ e.buyer then
    Except.error EscrowError.NotParticipant
  else if e.status = EscrowStatus.FullyFunded ∨ e.status = EscrowStatus.Completed then
    Except.error EscrowError.InvalidStatus
  else
    match refundLegs cfg e with
    | Except.ok ts =>
        Except.ok (Outcome.mk { e with status := EscrowStatus.Cancelled } [] ts)
    | Except.error err => Except.error err

/-- `refundExpired(escrowId)`: callable by anyone (`caller` is unused, as
in the source); requires `now > expiresAt` and a status other than
`Completed`/`Refunded`, both signalled as `InvalidStatus`; refunds
deposited local legs and sets `status = Refunded`. -/
def refundExpired (cfg : Config) (e : Escrow) (caller now : Nat) :
    Except EscrowError Outcome :=
  if e.seller = 0 then Except.error EscrowError.EscrowNotFound
  else if now ≤ e.expiresAt then Except.error EscrowError.InvalidStatus
  else if e.status = EscrowStatus.Completed ∨ e.status = EscrowStatus.Refunded then
    Except.error EscrowError.InvalidStatus
  else
    match refundLegs cfg e with
    | Except.ok ts =>
        Except.ok (Outcome.mk { e with status := EscrowStatus.Refunded } [] ts)
    | Except.error err => Except.error err

/-- The two contract mappings and the creation nonce. Mappings are
association lists: the first matching key wins, and a missing key reads
as Solidity's zero default. -/
structure LedgerState where
  escrows : List (Nat × Escrow)
  participantIndex : List (Nat × List Nat)
  escrowNonce : Nat
deriving DecidableEq, Repr

/-- The zero default of `mapping(bytes32 => Escrow)`. -/
def emptyEscrow : Escrow :=
  { escrowId := 0, seller := 0, buyer := 0,
    sellerToken := 0, sellerAmount := 0,
    sellerDeposited := false, sellerConfirmed := false,
    buyerToken := 0, buyerAmount := 0,
    buyerDeposited := false, buyerConfirmed := false,
    sellerChainId := 0, buyerChainId := 0,
    sellerEmitter := 0, buyerEmitter := 0,
    createdAt := 0, expiresAt := 0, completedAt := 0,
    status := EscrowStatus.Created,
    disputeResolver := 0, disputeReason := "" }

/-- Read `escrows[id]` (zero default for unknown ids). -/
def getEscrowRec (st : LedgerState) (id : Nat) : Escrow :=
  (st.escrows.lookup id).getD emptyEscrow

/-- Read `participantEscrows[party]`. -/
def escrowsOf (idx : List (Nat × List Nat)) (party : Nat) : List Nat :=
  (idx.lookup party).getD []

/-- `participantEscrows[party].push(id)`. -/
def pushEscrowId (idx : List (Nat × List Nat)) (party id : Nat) :
    List (Nat × List Nat) :=
  (party, escrowsOf idx party ++ [id]) :: idx

/-- `createEscrow(...)`: builds and stores the record with both deposit
and confirm flags cleared and status `Created`, and indexes the id under
both parties. A zero `duration` falls back to `defaultDuration`;
`expiresAt = now + duration` uses checked addition. The source derives
the id from a keccak hash of `(seller, buyer, timestamp, nonce++)`; the
model uses the nonce itself as the id. The source validates nothing
else: amounts (including zero) and parties are stored as given. -/
def createEscrow (cfg : Config) (st : LedgerState)
    (now seller buyer sellerToken sellerAmount buyerToken buyerAmount
     sellerChainId buyerChainId duration : Nat) :
    Except EscrowError (LedgerState × Nat) :=
  let dur := if duration = 0 then cfg.defaultDuration else duration
  if now + dur < UINT256 then
    let id := st.escrowNonce
    let e : Escrow :=
      { escrowId := id, seller := seller, buyer := buyer,
        sellerToken := sellerToken, sellerAmount := sellerAmount,
        sellerDeposited := false, sellerConfirmed := false,
        buyerToken := buyerToken, buyerAmount := buyerAmount,
        buyerDeposited := false, buyerConfirmed := false,
        sellerChainId := sellerChainId, buyerChainId := buyerChainId,
        sellerEmitter := 0, buyerEmitter := 0,
        createdAt := now, expiresAt := now + dur, completedAt := 0,
        status := EscrowStatus.Created,
        disputeResolver := 0, disputeReason := "" }
    Except.ok
      ({ escrows := (id, e) :: st.escrows,
         participantIndex :=
           pushEscrowId (pushEscrowId st.participantIndex seller id) buyer id,
         escrowNonce := st.escrowNonce + 1 }, id)
  else Except.error EscrowError.ArithmeticOverflow

/-- One mutating entry point of the contract together with its call
context (`msg.sender`, `msg.value` where payable, `block.timestamp`). -/
inductive Op where
  | opSellerDeposit (caller value now : Nat)
  | opBuyerDeposit (caller value now : Nat)
  | opSellerConfirm (caller now : Nat)
  | opBuyerConfirm (caller now : Nat)
  | opCancel (caller now : Nat)
  | opRefundExpired (caller now : Nat)
deriving DecidableEq, Repr

/-- Dispatch one call on one record. -/
def step (cfg : Config) (e : Escrow) : Op → Except EscrowError Outcome
  | Op.opSellerDeposit caller value now => sellerDeposit cfg e caller value now
  | Op.opBuyerDeposit caller value now => buyerDeposit cfg e caller value now
  | Op.opSellerConfirm caller now => sellerConfirm cfg e caller now
  | Op.opBuyerConfirm caller now => buyerConfirm cfg e caller now
  | Op.opCancel caller now => cancel cfg e caller now
  | Op.opRefundExpired caller now => refundExpired cfg e caller now

/-- Run a call sequence on one record, accumulating every payout the
contract makes; a reverting call leaves the record and the log as they
were. -/
def runOps (cfg : Config) : Escrow → List Transfer → List Op → Escrow × List Transfer
  | e, log, [] => (e, log)
  | e, log, op :: rest =>
    match step cfg e op with
    | Except.error _ => runOps cfg e log rest
    | Except.ok o => runOps cfg o.esc (log ++ o.moneyOut) rest

/-- `true` exactly when the call did not revert. -/
def callOk {α : Type} (r : Except EscrowError α) : Bool :=
  match r with
  | Except.ok _ => true
  | Except.error _ => false

/-- State invariant of every record the contract can actually hold: a
confirmation implies both deposits, a funded-or-later status implies both
deposits, and `Completed` implies both confirmations. -/
def ReachInv (e : Escrow) : Prop :=
  (e.sellerConfirmed = true → e.sellerDeposited = true ∧ e.buyerDeposited = true) ∧
  (e.buyerConfirmed = true → e.sellerDeposited = true ∧ e.buyerDeposited = true) ∧
  ((e.status = EscrowStatus.FullyFunded ∨ e.status = EscrowStatus.SellerConfirmed ∨
    e.status = EscrowStatus.BuyerConfirmed ∨ e.status = EscrowStatus.Completed) →
    e.sellerDeposited = true ∧ e.buyerDeposited = true) ∧
  (e.status = EscrowStatus.Completed →
    e.sellerConfirmed = true ∧ e.buyerConfirmed = true)

deriving instance DecidableEq for Except

instance (e : Escrow) : Decidable (ReachInv e) := by
  unfold ReachInv
  infer_instance

/-- The full set of transfers a completing call emits: each locally-hosted
leg pays its net amount to the counterparty plus the fee to the fee
recipient. -/
def completionPayout (cfg : Config) (e : Escrow) : List Transfer :=
  (if e.sellerChainId = cfg.thisChainId then
    payoutTransfers cfg e.buyer e.sellerToken e.sellerAmount
  else []) ++
  (if e.buyerChainId = cfg.thisChainId then
    payoutTransfers cfg e.seller e.buyerToken e.buyerAmount
  else [])

/-- Fixture: a deployment on chain id `2` with fee recipient `9` and the
source's default fee (25 bps) and duration. -/
def cfg0 : Config :=
  { protocolFee := 25, feeRecipient := 9, defaultDuration := 604800, thisChainId := 2 }

/-- Fixture: empty contract storage. -/
def st0 : LedgerState := { escrows := [], participantIndex := [], escrowNonce := 0 }

/-- Fixture: storage after `createEscrow` of a trade between seller `100`
and buyer `200`, token `1` amount `10000` against token `3` amount
`40000`, both legs hosted on this chain, created at time `0` with
duration `100`. -/
def stA : LedgerState :=
  match createEscrow cfg0 st0 0 100 200 1 10000 3 40000 2 2 100 with
  | Except.ok (st, _) => st
  | Except.error _ => st0

/-- Fixture: the record stored by `stA`'s creation. -/
def eA : Escrow := getEscrowRec stA 0

/-- Fixture: `eA` after the seller deposited at time `10`
(status `SellerDeposited`). -/
def rSD : Escrow := (runOps cfg0 eA [] [Op.opSellerDeposit 100 0 10]).1

/-- Fixture: `eA` after both deposits (status `FullyFunded`). -/
def rFF : Escrow :=
  (runOps cfg0 eA [] [Op.opSellerDeposit 100 0 10, Op.opBuyerDeposit 200 0 11]).1

/-- Fixture: `eA` fully funded and then confirmed by the seller
(status `SellerConfirmed`). -/
def rSC : Escrow :=
  (runOps cfg0 eA []
    [Op.opSellerDeposit 100 0 10, Op.opBuyerDeposit 200 0 11,
     Op.opSellerConfirm 100 12]).1

/-- Fixture: `eA` fully funded and then confirmed by the buyer first
(status `BuyerConfirmed`). -/
def rBC : Escrow :=
  (runOps cfg0 eA []
    [Op.opSellerDeposit 100 0 10, Op.opBuyerDeposit 200 0 11,
     Op.opBuyerConfirm 200 12]).1

/-- Fixture: the outcome of the completing call `buyerConfirm` on `rSC`
(empty on the unreachable error branch). -/
def oSC : Outcome :=
  match buyerConfirm cfg0 rSC 200 20 with
  | Except.ok o => o
  | Except.error _ => Outcome.mk emptyEscrow [] []

/-- Fixture: like `eA` but with a native (token `0`) seller leg. -/
def eN : Escrow :=
  match createEscrow cfg0 st0 0 100 200 0 10000 3 40000 2 2 100 with
  | Except.ok (st, _) => getEscrowRec st 0
  | Except.error _ => emptyEscrow

/-- Fixture: like `eA` but with a native (token `0`) buyer leg. -/
def eNB : Escrow :=
  match createEscrow cfg0 st0 0 100 200 1 10000 0 40000 2 2 100 with
  | Except.ok (st, _) => getEscrowRec st 0
  | Except.error _ => emptyEscrow

/-- A successful `_releaseAsset` emits exactly the net-plus-fee transfers
and certifies that neither checked operation overflowed. -/
theorem releaseAsset_ok {cfg : Config} {r t a : Nat} {ts : List Transfer}
    (h : releaseAsset cfg r t a = Except.ok ts) :
    ts = payoutTransfers cfg r t a ∧
    a * cfg.protocolFee / 10000 ≤ a ∧ a * cfg.protocolFee < UINT256 := by
  unfold releaseAsset at h
  split at h
  · split at h
    · exact ⟨(Except.ok.injEq _ _).mp h.symm, by assumption, by assumption⟩
    · exact absurd h (by simp)
  · exact absurd h (by simp)

/-- `_updateStatus` only ever writes `Completed` when both confirmations
are present (or leaves an already-`Completed` status untouched). -/
theorem newStatus_completed {e : Escrow}
    (h : newStatus e = EscrowStatus.Completed) :
    (e.sellerConfirmed = true ∧ e.buyerConfirmed = true) ∨
      e.status = EscrowStatus.Completed := by
  unfold newStatus at h
  split at h
  · split at h
    · exact Or.inl (by assumption)
    · split at h
      · exact absurd h (by simp)
      · split at h
        · exact absurd h (by simp)
        · exact absurd h (by simp)
  · split at h
    · exact absurd h (by simp)
    · split at h
      · exact absurd h (by simp)
      · exact Or.inr h

/-- `_updateStatus` preserves the reachability invariant. -/
theorem reachInv_updateStatus {e : Escrow} (h : ReachInv e) :
    ReachInv (updateStatus e) := by
  obtain ⟨h1, h2, h3, h4⟩ := h
  refine ⟨h1, h2, ?_, ?_⟩
  · intro hs
    simp only [updateStatus] at hs
    unfold newStatus at hs
    split at hs
    · exact (by assumption)
    · split at hs
      · simp at hs
      · split at hs
        · simp at hs
        · exact h3 hs
  · intro hs
    simp only [updateStatus] at hs
    rcases newStatus_completed hs with hc | hc
    · exact hc
    · exact h4 hc

/-- Raising the seller's deposit flag preserves the invariant. -/
theorem reachInv_setSellerDeposited {e : Escrow} (h : ReachInv e) :
    ReachInv { e with sellerDeposited := true } := by
  obtain ⟨h1, h2, h3, h4⟩ := h
  refine ⟨?_, ?_, ?_, ?_⟩ <;> intro hs <;> simp_all

/-- Raising the buyer's deposit flag preserves the invariant. -/
theorem reachInv_setBuyerDeposited {e : Escrow} (h : ReachInv e) :
    ReachInv { e with buyerDeposited := true } := by
  obtain ⟨h1, h2, h3, h4⟩ := h
  refine ⟨?_, ?_, ?_, ?_⟩ <;> intro hs <;> simp_all

/-- Raising the seller's confirmation flag preserves the invariant when
both legs are already deposited. -/
theorem reachInv_setSellerConfirmed {e : Escrow} (h : ReachInv e)
    (hsd : e.sellerDeposited = true) (hbd : e.buyerDeposited = true) :
    ReachInv { e with sellerConfirmed := true } := by
  obtain ⟨h1, h2, h3, h4⟩ := h
  refine ⟨?_, ?_, ?_, ?_⟩ <;> intro hs <;> simp_all

/-- Raising the buyer's confirmation flag preserves the invariant when
both legs are already deposited. -/
theorem reachInv_setBuyerConfirmed {e : Escrow} (h : ReachInv e)
    (hsd : e.sellerDeposited = true) (hbd : e.buyerDeposited = true) :
    ReachInv { e with buyerConfirmed := true } := by
  obtain ⟨h1, h2, h3, h4⟩ := h
  refine ⟨?_, ?_, ?_, ?_⟩ <;> intro hs <;> simp_all

/-- The completing write of `_tryComplete` preserves the invariant. -/
theorem reachInv_complete {e : Escrow} (n : Nat) (h : ReachInv e)
    (hsc : e.sellerConfirmed = true) (hbc : e.buyerConfirmed = true) :
    ReachInv { e with status := EscrowStatus.Completed, completedAt := n } := by
  obtain ⟨h1, h2, h3, h4⟩ := h
  refine ⟨?_, ?_, ?_, ?_⟩ <;> intro hs <;> simp_all

/-- Writing `Cancelled` preserves the invariant. -/
theorem reachInv_cancelled {e : Escrow} (h : ReachInv e) :
    ReachInv { e with status := EscrowStatus.Cancelled } := by
  obtain ⟨h1, h2, h3, h4⟩ := h
  refine ⟨?_, ?_, ?_, ?_⟩ <;> intro hs <;> simp_all

/-- Writing `Refunded` preserves the invariant. -/
theorem reachInv_refunded {e : Escrow} (h : ReachInv e) :
    ReachInv { e with status := EscrowStatus.Refunded } := by
  obtain ⟨h1, h2, h3, h4⟩ := h
  refine ⟨?_, ?_, ?_, ?_⟩ <;> intro hs <;> simp_all

/-- Everything a successful `sellerDeposit` certifies: all five guards
passed, the record only gained the deposit flag (plus the recomputed
status), and nothing was paid out. -/
theorem sellerDeposit_ok {cfg : Config} {e : Escrow} {caller value now : Nat}
    {o : Outcome} (h : sellerDeposit cfg e caller value now = Except.ok o) :
    e.seller ≠ 0 ∧ caller = e.seller ∧ e.sellerDeposited = false ∧
      now ≤ e.expiresAt ∧ e.sellerChainId = cfg.thisChainId ∧
      o.esc = updateStatus { e with sellerDeposited := true } ∧
      o.moneyOut = [] := by
  unfold sellerDeposit at h
  split_ifs at h with h0 h1 h2 h3 h4 h5 h6 <;> try exact Except.noConfusion h
  all_goals injection h with h
  all_goals subst h
  all_goals
    exact ⟨h0, not_not.mp h1, by simpa using h2, Nat.not_lt.mp h3,
      not_not.mp h4, rfl, rfl⟩

/-- Symmetric success shape for `buyerDeposit`. -/
theorem buyerDeposit_ok {cfg : Config} {e : Escrow} {caller value now : Nat}
    {o : Outcome} (h : buyerDeposit cfg e caller value now = Except.ok o) :
    e.buyer ≠ 0 ∧ caller = e.buyer ∧ e.buyerDeposited = false ∧
      now ≤ e.expiresAt ∧ e.buyerChainId = cfg.thisChainId ∧
      o.esc = updateStatus { e with buyerDeposited := true } ∧
      o.moneyOut = [] := by
  unfold buyerDeposit at h
  split_ifs at h with h0 h1 h2 h3 h4 h5 h6 <;> try exact Except.noConfusion h
  all_goals injection h with h
  all_goals subst h
  all_goals
    exact ⟨h0, not_not.mp h1, by simpa using h2, Nat.not_lt.mp h3,
      not_not.mp h4, rfl, rfl⟩

/-- Case split for a successful `_tryComplete`: either not both parties
had confirmed and nothing happened, or both had and the record was
completed with both locally-hosted legs released. -/
theorem tryComplete_ok {cfg : Config} {e : Escrow} {n : Nat} {e2 : Escrow}
    {ts : List Transfer} (h : tryComplete cfg e n = Except.ok (e2, ts)) :
    (¬(e.sellerConfirmed = true ∧ e.buyerConfirmed = true) ∧ e2 = e ∧ ts = []) ∨
    (e.sellerConfirmed = true ∧ e.buyerConfirmed = true ∧
      e2 = { e with status := EscrowStatus.Completed, completedAt := n } ∧
      ∃ t1 t2, sellerLegPayout cfg e = Except.ok t1 ∧
        buyerLegPayout cfg e = Except.ok t2 ∧ ts = t1 ++ t2) := by
  unfold tryComplete at h
  split at h
  · split at h <;> try exact Except.noConfusion h
    next t1 t2 heq1 heq2 =>
      injection h with h
      refine Or.inr ⟨by tauto, by tauto, ?_, t1, t2, heq1, heq2, ?_⟩
      · exact congrArg Prod.fst h.symm
      · exact congrArg Prod.snd h.symm
  · injection h with h
    exact Or.inl ⟨by assumption, congrArg Prod.fst h.symm, congrArg Prod.snd h.symm⟩

/-- Success shape of `sellerConfirm`: guards passed (in particular the
status had to be exactly `FullyFunded`) and the result is whatever
`_tryComplete` produced after raising the seller's confirmation. -/
theorem sellerConfirm_ok {cfg : Config} {e : Escrow} {caller now : Nat}
    {o : Outcome} (h : sellerConfirm cfg e caller now = Except.ok o) :
    e.seller ≠ 0 ∧ caller = e.seller ∧ e.sellerConfirmed = false ∧
      e.status = EscrowStatus.FullyFunded ∧
      tryComplete cfg (updateStatus { e with sellerConfirmed := true }) now =
        Except.ok (o.esc, o.moneyOut) := by
  unfold sellerConfirm at h
  split_ifs at h with h0 h1 h2 h3 <;> try exact Except.noConfusion h
  split at h <;> try exact Except.noConfusion h
  next e2 ts heq =>
    injection h with h
    subst h
    exact ⟨h0, not_not.mp h1, by simpa using h2, not_not.mp h3, heq⟩

/-- Success shape of `buyerConfirm`: unlike `sellerConfirm`, both
`FullyFunded` and `SellerConfirmed` pass the status guard. -/
theorem buyerConfirm_ok {cfg : Config} {e : Escrow} {caller now : Nat}
    {o : Outcome} (h : buyerConfirm cfg e caller now = Except.ok o) :
    e.buyer ≠ 0 ∧ caller = e.buyer ∧ e.buyerConfirmed = false ∧
      (e.status = EscrowStatus.FullyFunded ∨
        e.status = EscrowStatus.SellerConfirmed) ∧
      tryComplete cfg (updateStatus { e with buyerConfirmed := true }) now =
        Except.ok (o.esc, o.moneyOut) := by
  unfold buyerConfirm at h
  split_ifs at h with h0 h1 h2 h3 <;> try exact Except.noConfusion h
  split at h <;> try exact Except.noConfusion h
  next e2 ts heq =>
    injection h with h
    subst h
    refine ⟨h0, not_not.mp h1, by simpa using h2, ?_, heq⟩
    rcases not_and_or.mp h3 with hc | hc
    · exact Or.inl (not_not.mp hc)
    · exact Or.inr (not_not.mp hc)

/-- Success shape of `cancel`: the status guard only excludes
`FullyFunded` and `Completed`; the deposited local legs were refunded via
`refundLegs` and the status was set to `Cancelled`. -/
theorem cancel_ok {cfg : Config} {e : Escrow} {caller now : Nat}
    {o : Outcome} (h : cancel cfg e caller now = Except.ok o) :
    e.seller ≠ 0 ∧ (caller = e.seller ∨ caller = e.buyer) ∧
      e.status ≠ EscrowStatus.FullyFunded ∧
      e.status ≠ EscrowStatus.Completed ∧
      refundLegs cfg e = Except.ok o.moneyOut ∧
      o.esc = { e with status := EscrowStatus.Cancelled } := by
  unfold cancel at h
  split_ifs at h with h0 h1 h2 <;> try exact Except.noConfusion h
  split at h <;> try exact Except.noConfusion h
  next ts heq =>
    injection h with h
    subst h
    refine ⟨h0, ?_, ?_, ?_, heq, rfl⟩
    · rcases not_and_or.mp h1 with hc | hc
      · exact Or.inl (not_not.mp hc)
      · exact Or.inr (not_not.mp hc)
    · exact fun hc => h2 (Or.inl hc)
    · exact fun hc => h2 (Or.inr hc)

/-- Success shape of `refundExpired`: no caller restriction; requires
strict expiry and a status other than `Completed`/`Refunded`; refunds the
deposited local legs and sets `Refunded`. -/
theorem refundExpired_ok {cfg : Config} {e : Escrow} {caller now : Nat}
    {o : Outcome} (h : refundExpired cfg e caller now = Except.ok o) :
    e.seller ≠ 0 ∧ e.expiresAt < now ∧
      e.status ≠ EscrowStatus.Completed ∧
      e.status ≠ EscrowStatus.Refunded ∧
      refundLegs cfg e = Except.ok o.moneyOut ∧
      o.esc = { e with status := EscrowStatus.Refunded } := by
  unfold refundExpired at h
  split_ifs at h with h0 h1 h2 <;> try exact Except.noConfusion h
  split at h <;> try exact Except.noConfusion h
  next ts heq =>
    injection h with h
    subst h
    refine ⟨h0, Nat.not_le.mp h1, ?_, ?_, heq, rfl⟩
    · exact fun hc => h2 (Or.inl hc)
    · exact fun hc => h2 (Or.inr hc)

/-- Every successful call preserves the reachability invariant. -/
theorem reachInv_step {cfg : Config} {e : Escrow} {op : Op} {o : Outcome}
    (hInv : ReachInv e) (h : step cfg e op = Except.ok o) :
    ReachInv o.esc := by
  cases op with
  | opSellerDeposit c v n =>
    obtain ⟨_, _, _, _, _, hesc, _⟩ := sellerDeposit_ok h
    rw [hesc]
    exact reachInv_updateStatus (reachInv_setSellerDeposited hInv)
  | opBuyerDeposit c v n =>
    obtain ⟨_, _, _, _, _, hesc, _⟩ := buyerDeposit_ok h
    rw [hesc]
    exact reachInv_updateStatus (reachInv_setBuyerDeposited hInv)
  | opSellerConfirm c n =>
    obtain ⟨_, _, _, hst, htc⟩ := sellerConfirm_ok h
    have hdep := hInv.2.2.1 (Or.inl hst)
    have hInv1 : ReachInv (updateStatus { e with sellerConfirmed := true }) :=
      reachInv_updateStatus (reachInv_setSellerConfirmed hInv hdep.1 hdep.2)
    rcases tryComplete_ok htc with ⟨_, he2, _⟩ | ⟨hsc, hbc, he2, _⟩
    · rw [he2]; exact hInv1
    · rw [he2]; exact reachInv_complete n hInv1 hsc hbc
  | opBuyerConfirm c n =>
    obtain ⟨_, _, _, hst, htc⟩ := buyerConfirm_ok h
    have hdep : e.sellerDeposited = true ∧ e.buyerDeposited = true := by
      rcases hst with hst | hst
      · exact hInv.2.2.1 (Or.inl hst)
      · exact hInv.2.2.1 (Or.inr (Or.inl hst))
    have hInv1 : ReachInv (updateStatus { e with buyerConfirmed := true }) :=
      reachInv_updateStatus (reachInv_setBuyerConfirmed hInv hdep.1 hdep.2)
    rcases tryComplete_ok htc with ⟨_, he2, _⟩ | ⟨hsc, hbc, he2, _⟩
    · rw [he2]; exact hInv1
    · rw [he2]; exact reachInv_complete n hInv1 hsc hbc
  | opCancel c n =>
    obtain ⟨_, _, _, _, _, hesc⟩ := @cancel_ok cfg e c n o h
    rw [hesc]
    exact reachInv_cancelled hInv
  | opRefundExpired c n =>
    obtain ⟨_, _, _, _, _, hesc⟩ := @refundExpired_ok cfg e c n o h
    rw [hesc]
    exact reachInv_refunded hInv

/-- On an invariant-satisfying `Completed` record, every mutating entry
point reverts: the deposits with `AlreadyDeposited`-class guards (both
flags are set), the confirms with `AlreadyConfirmed`-class guards, and
cancel/refund with their explicit `Completed` status checks. -/
theorem completed_blocks {cfg : Config} {e : Escrow} (hInv : ReachInv e)
    (hst : e.status = EscrowStatus.Completed) :
    ∀ (op : Op) (o : Outcome), step cfg e op ≠ Except.ok o := by
  intro op o h
  have hdep := hInv.2.2.1 (Or.inr (Or.inr (Or.inr hst)))
  have hconf := hInv.2.2.2 hst
  cases op with
  | opSellerDeposit c v n =>
    obtain ⟨_, _, hd, _⟩ := sellerDeposit_ok h
    rw [hdep.1] at hd
    exact Bool.noConfusion hd
  | opBuyerDeposit c v n =>
    obtain ⟨_, _, hd, _⟩ := buyerDeposit_ok h
    rw [hdep.2] at hd
    exact Bool.noConfusion hd
  | opSellerConfirm c n =>
    obtain ⟨_, _, hc, _⟩ := sellerConfirm_ok h
    rw [hconf.1] at hc
    exact Bool.noConfusion hc
  | opBuyerConfirm c n =>
    obtain ⟨_, _, hc, _⟩ := buyerConfirm_ok h
    rw [hconf.2] at hc
    exact Bool.noConfusion hc
  | opCancel c n =>
    obtain ⟨_, _, _, hC, _⟩ := @cancel_ok cfg e c n o h
    exact hC hst
  | opRefundExpired c n =>
    obtain ⟨_, _, hC, _⟩ := @refundExpired_ok cfg e c n o h
    exact hC hst

@[simp] theorem updateStatus_seller (e : Escrow) :
    (updateStatus e).seller = e.seller := rfl

@[simp] theorem updateStatus_buyer (e : Escrow) :
    (updateStatus e).buyer = e.buyer := rfl

@[simp] theorem updateStatus_sellerToken (e : Escrow) :
    (updateStatus e).sellerToken = e.sellerToken := rfl

@[simp] theorem updateStatus_sellerAmount (e : Escrow) :
    (updateStatus e).sellerAmount = e.sellerAmount := rfl

@[simp] theorem updateStatus_buyerToken (e : Escrow) :
    (updateStatus e).buyerToken = e.buyerToken := rfl

@[simp] theorem updateStatus_buyerAmount (e : Escrow) :
    (updateStatus e).buyerAmount = e.buyerAmount := rfl

@[simp] theorem updateStatus_sellerDeposited (e : Escrow) :
    (updateStatus e).sellerDeposited = e.sellerDeposited := rfl

@[simp] theorem updateStatus_buyerDeposited (e : Escrow) :
    (updateStatus e).buyerDeposited = e.buyerDeposited := rfl

@[simp] theorem updateStatus_sellerConfirmed (e : Escrow) :
    (updateStatus e).sellerConfirmed = e.sellerConfirmed := rfl

@[simp] theorem updateStatus_buyerConfirmed (e : Escrow) :
    (updateStatus e).buyerConfirmed = e.buyerConfirmed := rfl

@[simp] theorem updateStatus_sellerChainId (e : Escrow) :
    (updateStatus e).sellerChainId = e.sellerChainId := rfl

@[simp] theorem updateStatus_buyerChainId (e : Escrow) :
    (updateStatus e).buyerChainId = e.buyerChainId := rfl

@[simp] theorem updateStatus_expiresAt (e : Escrow) :
    (updateStatus e).expiresAt = e.expiresAt := rfl

@[simp] theorem updateStatus_status (e : Escrow) :
    (updateStatus e).status = newStatus e := rfl

/-- A successful seller-leg release pays out exactly when the leg is
locally hosted, and then without fee overflow. -/
theorem sellerLegPayout_ok {cfg : Config} {e : Escrow} {t1 : List Transfer}
    (h : sellerLegPayout cfg e = Except.ok t1) :
    t1 = (if e.sellerChainId = cfg.thisChainId then
            payoutTransfers cfg e.buyer e.sellerToken e.sellerAmount
          else []) ∧
    (e.sellerChainId = cfg.thisChainId →
      e.sellerAmount * cfg.protocolFee / 10000 ≤ e.sellerAmount) := by
  unfold sellerLegPayout at h
  split at h
  next hc =>
    obtain ⟨ht, hfee, _⟩ := releaseAsset_ok h
    exact ⟨by rw [if_pos hc]; exact ht, fun _ => hfee⟩
  next hc =>
    injection h with h
    exact ⟨by rw [if_neg hc]; exact h.symm, fun hx => absurd hx hc⟩

/-- Symmetric characterisation for the buyer's leg. -/
theorem buyerLegPayout_ok {cfg : Config} {e : Escrow} {t2 : List Transfer}
    (h : buyerLegPayout cfg e = Except.ok t2) :
    t2 = (if e.buyerChainId = cfg.thisChainId then
            payoutTransfers cfg e.seller e.buyerToken e.buyerAmount
          else []) ∧
    (e.buyerChainId = cfg.thisChainId →
      e.buyerAmount * cfg.protocolFee / 10000 ≤ e.buyerAmount) := by
  unfold buyerLegPayout at h
  split at h
  next hc =>
    obtain ⟨ht, hfee, _⟩ := releaseAsset_ok h
    exact ⟨by rw [if_pos hc]; exact ht, fun _ => hfee⟩
  next hc =>
    injection h with h
    exact ⟨by rw [if_neg hc]; exact h.symm, fun hx => absurd hx hc⟩

/-- Any single successful call that leaves the record `Completed` must be
a confirm call with both confirmations set afterwards, and its payouts
are exactly `completionPayout` (no fee-arithmetic overflow occurred). -/
theorem step_completes {cfg : Config} {e : Escrow} {op : Op} {o : Outcome}
    (hInv : ReachInv e) (h : step cfg e op = Except.ok o)
    (hC : o.esc.status = EscrowStatus.Completed) :
    (o.esc.sellerConfirmed = true ∧ o.esc.buyerConfirmed = true) ∧
    o.moneyOut = completionPayout cfg e ∧
    (e.sellerChainId = cfg.thisChainId →
      e.sellerAmount * cfg.protocolFee / 10000 ≤ e.sellerAmount) ∧
    (e.buyerChainId = cfg.thisChainId →
      e.buyerAmount * cfg.protocolFee / 10000 ≤ e.buyerAmount) := by
  by_cases hterm : e.status = EscrowStatus.Completed
  · exact absurd h (completed_blocks hInv hterm op o)
  cases op with
  | opSellerDeposit c v n =>
    exfalso
    obtain ⟨_, _, hd, _, _, hesc, _⟩ := sellerDeposit_ok h
    rw [hesc] at hC
    simp only [updateStatus_status] at hC
    rcases newStatus_completed hC with ⟨h1, h2⟩ | hcc
    · have := (hInv.1 (by simpa using h1)).1
      rw [hd] at this
      exact Bool.noConfusion this
    · exact hterm (by simpa using hcc)
  | opBuyerDeposit c v n =>
    exfalso
    obtain ⟨_, _, hd, _, _, hesc, _⟩ := buyerDeposit_ok h
    rw [hesc] at hC
    simp only [updateStatus_status] at hC
    rcases newStatus_completed hC with ⟨h1, h2⟩ | hcc
    · have := (hInv.1 (by simpa using h1)).2
      rw [hd] at this
      exact Bool.noConfusion this
    · exact hterm (by simpa using hcc)
  | opSellerConfirm c n =>
    obtain ⟨_, _, _, hst, htc⟩ := sellerConfirm_ok h
    rcases tryComplete_ok htc with ⟨hn, he2, _⟩ | ⟨hsc, hbc, he2, t1, t2, ht1, ht2, hts⟩
    · exfalso
      rw [he2] at hC
      simp only [updateStatus_status] at hC
      rcases newStatus_completed hC with ⟨h1, h2⟩ | hcc
      · exact hn ⟨by simpa using h1, by simpa using h2⟩
      · exact hterm (by simpa using hcc)
    · refine ⟨?_, ?_, ?_, ?_⟩
      · rw [he2]; exact ⟨hsc, hbc⟩
      · obtain ⟨ht1e, hf1⟩ := sellerLegPayout_ok ht1
        obtain ⟨ht2e, hf2⟩ := buyerLegPayout_ok ht2
        rw [hts, ht1e, ht2e]
        simp [completionPayout]
      · obtain ⟨_, hf1⟩ := sellerLegPayout_ok ht1
        intro hc
        simpa using hf1 (by simpa using hc)
      · obtain ⟨_, hf2⟩ := buyerLegPayout_ok ht2
        intro hc
        simpa using hf2 (by simpa using hc)
  | opBuyerConfirm c n =>
    obtain ⟨_, _, _, hst, htc⟩ := buyerConfirm_ok h
    rcases tryComplete_ok htc with ⟨hn, he2, _⟩ | ⟨hsc, hbc, he2, t1, t2, ht1, ht2, hts⟩
    · exfalso
      rw [he2] at hC
      simp only [updateStatus_status] at hC
      rcases newStatus_completed hC with ⟨h1, h2⟩ | hcc
      · exact hn ⟨by simpa using h1, by simpa using h2⟩
      · exact hterm (by simpa using hcc)
    · refine ⟨?_, ?_, ?_, ?_⟩
      · rw [he2]; exact ⟨hsc, hbc⟩
      · obtain ⟨ht1e, hf1⟩ := sellerLegPayout_ok ht1
        obtain ⟨ht2e, hf2⟩ := buyerLegPayout_ok ht2
        rw [hts, ht1e, ht2e]
        simp [completionPayout]
      · obtain ⟨_, hf1⟩ := sellerLegPayout_ok ht1
        intro hc
        simpa using hf1 (by simpa using hc)
      · obtain ⟨_, hf2⟩ := buyerLegPayout_ok ht2
        intro hc
        simpa using hf2 (by simpa using hc)
  | opCancel c n =>
    exfalso
    obtain ⟨_, _, _, _, _, hesc⟩ := @cancel_ok cfg e c n o h
    rw [hesc] at hC
    simp at hC
  | opRefundExpired c n =>
    exfalso
    obtain ⟨_, _, _, _, _, hesc⟩ := @refundExpired_ok cfg e c n o h
    rw [hesc] at hC
    simp at hC

/-- A record freshly stored by `createEscrow` satisfies the reachability
invariant (all flags cleared, status `Created`). -/
theorem createEscrow_reachInv {cfg : Config} {st : LedgerState}
    {now seller buyer sellerToken sellerAmount buyerToken buyerAmount
     sellerChainId buyerChainId duration : Nat} {st' : LedgerState} {id : Nat}
    (h : createEscrow cfg st now seller buyer sellerToken sellerAmount buyerToken
          buyerAmount sellerChainId buyerChainId duration = Except.ok (st', id)) :
    ReachInv (getEscrowRec st' id) := by
  unfold createEscrow at h
  dsimp only at h
  split at h <;> split at h <;> try exact Except.noConfusion h
  all_goals injection h with h
  all_goals obtain ⟨h1, h2⟩ := Prod.mk.injEq .. |>.mp h
  all_goals subst h1
  all_goals subst h2
  all_goals simp [getEscrowRec, ReachInv, List.lookup]

/-- C2 (atomic release): a freshly created record satisfies the
reachability invariant, every successful call preserves it, and on any
invariant-satisfying record, a call after which the status is `Completed`
has both confirmations set and pays out exactly once per locally-hosted
leg — the net amount to the counterparty of the leg's owner and the fee
to the fee recipient, with `fee ≤ amount` and `net + fee = amount` — and
afterwards no further call (hence no further payout) can ever succeed. -/
theorem c2_atomic_release :
    (∀ (cfg : Config) (st : LedgerState)
        (now seller buyer sellerToken sellerAmount buyerToken buyerAmount
         sellerChainId buyerChainId duration : Nat) (st' : LedgerState) (id : Nat),
      createEscrow cfg st now seller buyer sellerToken sellerAmount buyerToken
          buyerAmount sellerChainId buyerChainId duration = Except.ok (st', id) →
      ReachInv (getEscrowRec st' id)) ∧
    (∀ (cfg : Config) (e : Escrow) (op : Op) (o : Outcome),
      ReachInv e → step cfg e op = Except.ok o → ReachInv o.esc) ∧
    (∀ (cfg : Config) (e : Escrow) (op : Op) (o : Outcome),
      ReachInv e → step cfg e op = Except.ok o →
      o.esc.status = EscrowStatus.Completed →
      (o.esc.sellerConfirmed = true ∧ o.esc.buyerConfirmed = true) ∧
      o.moneyOut = completionPayout cfg e ∧
      (e.sellerChainId = cfg.thisChainId →
        e.sellerAmount * cfg.protocolFee / 10000 ≤ e.sellerAmount ∧
        (e.sellerAmount - e.sellerAmount * cfg.protocolFee / 10000) +
          e.sellerAmount * cfg.protocolFee / 10000 = e.sellerAmount) ∧
      (e.buyerChainId = cfg.thisChainId →
        e.buyerAmount * cfg.protocolFee / 10000 ≤ e.buyerAmount ∧
        (e.buyerAmount - e.buyerAmount * cfg.protocolFee / 10000) +
          e.buyerAmount * cfg.protocolFee / 10000 = e.buyerAmount) ∧
      (∀ (op2 : Op) (o2 : Outcome), step cfg o.esc op2 ≠ Except.ok o2)) := by
  refine ⟨fun cfg st now s b stk sa btk ba sc bc d st' id h => createEscrow_reachInv h,
          fun cfg e op o hI h => reachInv_step hI h,
          fun cfg e op o hI h hC => ?_⟩
  obtain ⟨hconf, hpay, hf1, hf2⟩ := step_completes hI h hC
  exact ⟨hconf, hpay,
    fun hc => ⟨hf1 hc, Nat.sub_add_cancel (hf1 hc)⟩,
    fun hc => ⟨hf2 hc, Nat.sub_add_cancel (hf2 hc)⟩,
    completed_blocks (reachInv_step hI h) hC⟩

/-- Witness for C2 on concrete inputs: the fixture's creation yields an
invariant-satisfying record, the completing `buyerConfirm` on `rSC`
succeeds, and the claimed payout/blocking conclusion holds for it. -/
theorem c2_atomic_release_witness :
    (createEscrow cfg0 st0 0 100 200 1 10000 3 40000 2 2 100 =
        Except.ok (stA, 0) ∧ ReachInv (getEscrowRec stA 0)) ∧
    (ReachInv rSC ∧ step cfg0 rSC (Op.opBuyerConfirm 200 20) = Except.ok oSC) ∧
    (oSC.esc.status = EscrowStatus.Completed ∧
      ((oSC.esc.sellerConfirmed = true ∧ oSC.esc.buyerConfirmed = true) ∧
        oSC.moneyOut = completionPayout cfg0 rSC ∧
        (rSC.sellerChainId = cfg0.thisChainId →
          rSC.sellerAmount * cfg0.protocolFee / 10000 ≤ rSC.sellerAmount ∧
          (rSC.sellerAmount - rSC.sellerAmount * cfg0.protocolFee / 10000) +
            rSC.sellerAmount * cfg0.protocolFee / 10000 = rSC.sellerAmount) ∧
        (rSC.buyerChainId = cfg0.thisChainId →
          rSC.buyerAmount * cfg0.protocolFee / 10000 ≤ rSC.buyerAmount ∧
          (rSC.buyerAmount - rSC.buyerAmount * cfg0.protocolFee / 10000) +
            rSC.buyerAmount * cfg0.protocolFee / 10000 = rSC.buyerAmount) ∧
        (∀ (op2 : Op) (o2 : Outcome),
          step cfg0 oSC.esc op2 ≠ Except.ok o2))) :=
  ⟨⟨by decide,
    c2_atomic_release.1 cfg0 st0 0 100 200 1 10000 3 40000 2 2 100 stA 0 (by decide)⟩,
   ⟨by decide, by decide⟩,
   ⟨by decide,
    c2_atomic_release.2.2 cfg0 rSC (Op.opBuyerConfirm 200 20) oSC
      (by decide) (by decide) (by decide)⟩⟩

/-- A call is `callOk` exactly when it returned an outcome. -/
theorem callOk_iff {α : Type} {r : Except EscrowError α} :
    callOk r = true ↔ ∃ a, r = Except.ok a := by
  cases r <;> simp [callOk]

/-- C1 (refuted by the code): a terminal record is not immutable. In the
concrete run below the record reaches the terminal status `Refunded`
(after the seller's 10000-token deposit was refunded, 9975 to the seller
and 25 fee), yet the subsequent `cancel` by the seller succeeds, pays the
seller's leg out a second time and rewrites the status to `Cancelled`. -/
theorem c1_cancel_succeeds_on_refunded :
    (runOps cfg0 eA [] [Op.opSellerDeposit 100 0 10, Op.opRefundExpired 7 101]).1.status
        = EscrowStatus.Refunded ∧
    (runOps cfg0 eA [] [Op.opSellerDeposit 100 0 10, Op.opRefundExpired 7 101]).2
        = [Transfer.mk 100 1 9975, Transfer.mk 9 1 25] ∧
    (step cfg0
        (runOps cfg0 eA [] [Op.opSellerDeposit 100 0 10, Op.opRefundExpired 7 101]).1
        (Op.opCancel 100 150)).map (fun o => (o.esc.status, o.moneyOut))
      = Except.ok (EscrowStatus.Cancelled,
          [Transfer.mk 100 1 9975, Transfer.mk 9 1 25]) :=
  ⟨by decide, by decide, by decide⟩

/-- C3 (refuted by the code): with the buyer confirming first the record
reaches `BuyerConfirmed`, and then `sellerConfirm` by the seller reverts
with `InvalidStatus` (its guard only accepts `FullyFunded`), so such an
escrow can never complete; the mirror case (`buyerConfirm` from
`SellerConfirmed`) does succeed. -/
theorem c3_sellerConfirm_rejected_from_buyerConfirmed :
    rBC.status = EscrowStatus.BuyerConfirmed ∧
    rBC.seller = 100 ∧
    sellerConfirm cfg0 rBC 100 13 = Except.error EscrowError.InvalidStatus ∧
    rSC.status = EscrowStatus.SellerConfirmed ∧
    callOk (buyerConfirm cfg0 rSC 200 13) = true :=
  ⟨by decide, by decide, by decide, by decide, by decide⟩

/-- C4 counterexample: `createEscrow` with a zero seller-leg amount does
not fail at validation — it succeeds, stores the record (amount `0`,
status `Created`) and extends both parties' indices. -/
theorem c4_zero_amount_escrow_created :
    callOk (createEscrow cfg0 st0 0 100 200 1 0 3 40000 2 2 100) = true ∧
    (createEscrow cfg0 st0 0 100 200 1 0 3 40000 2 2 100).map
        (fun p => ((getEscrowRec p.1 p.2).sellerAmount,
                   (getEscrowRec p.1 p.2).status,
                   escrowsOf p.1.participantIndex 100,
                   escrowsOf p.1.participantIndex 200))
      = Except.ok (0, EscrowStatus.Created, [0], [0]) :=
  ⟨by decide, by decide⟩

/-- C4 amended: `createEscrow` performs no validation of the leg amounts
(zero-amount legs included): whenever the checked `expiresAt` addition
does not overflow, it succeeds, stores the record with the given amounts
and status `Created` under the fresh id, and appends that id to both
(distinct) parties' indices. -/
theorem c4_amended_no_amount_validation (cfg : Config) (st : LedgerState)
    (now seller buyer sellerToken sellerAmount buyerToken buyerAmount
     sellerChainId buyerChainId duration : Nat)
    (hof : now + (if duration = 0 then cfg.defaultDuration else duration) < UINT256)
    (hne : seller ≠ buyer) :
    ∃ st', createEscrow cfg st now seller buyer sellerToken sellerAmount buyerToken
        buyerAmount sellerChainId buyerChainId duration =
          Except.ok (st', st.escrowNonce) ∧
      (getEscrowRec st' st.escrowNonce).sellerAmount = sellerAmount ∧
      (getEscrowRec st' st.escrowNonce).buyerAmount = buyerAmount ∧
      (getEscrowRec st' st.escrowNonce).status = EscrowStatus.Created ∧
      escrowsOf st'.participantIndex seller =
        escrowsOf st.participantIndex seller ++ [st.escrowNonce] ∧
      escrowsOf st'.participantIndex buyer =
        escrowsOf st.participantIndex buyer ++ [st.escrowNonce] := by
  unfold createEscrow
  dsimp only
  rw [if_pos hof]
  refine ⟨_, rfl, ?_, ?_, ?_, ?_, ?_⟩
  · simp [getEscrowRec, List.lookup]
  · simp [getEscrowRec, List.lookup]
  · simp [getEscrowRec, List.lookup]
  · have h1 : (seller == buyer) = false := beq_eq_false_iff_ne.mpr hne
    have h2 : (buyer == seller) = false := beq_eq_false_iff_ne.mpr hne.symm
    simp [escrowsOf, pushEscrowId, List.lookup, h1, h2]
  · have h2 : (buyer == seller) = false := beq_eq_false_iff_ne.mpr hne.symm
    simp [escrowsOf, pushEscrowId, List.lookup, h2]

/-- Witness for C4's amended claim at a concrete input with a zero
seller-leg amount. -/
theorem c4_amended_no_amount_validation_witness :
    ((0 : Nat) + (if (100 : Nat) = 0 then cfg0.defaultDuration else 100) < UINT256) ∧
    (100 : Nat) ≠ 200 ∧
    (∃ st', createEscrow cfg0 st0 0 100 200 1 0 3 40000 2 2 100 =
          Except.ok (st', st0.escrowNonce) ∧
      (getEscrowRec st' st0.escrowNonce).sellerAmount = 0 ∧
      (getEscrowRec st' st0.escrowNonce).buyerAmount = 40000 ∧
      (getEscrowRec st' st0.escrowNonce).status = EscrowStatus.Created ∧
      escrowsOf st'.participantIndex 100 =
        escrowsOf st0.participantIndex 100 ++ [st0.escrowNonce] ∧
      escrowsOf st'.participantIndex 200 =
        escrowsOf st0.participantIndex 200 ++ [st0.escrowNonce]) :=
  ⟨by decide, by decide,
   c4_amended_no_amount_validation cfg0 st0 0 100 200 1 0 3 40000 2 2 100
     (by decide) (by decide)⟩

/-- C5 counterexample: the fee computation does not cover the whole
`uint256` range. At `amount = 2^256 - 1` (a representable amount) with
the configured 25-bps fee, the checked multiplication
`amount * protocolFee` overflows and the release reverts instead of
producing `fee = floor(amount * feeBps / 10000)`. -/
theorem c5_fee_overflow_at_max_uint :
    UINT256 - 1 < UINT256 ∧ cfg0.protocolFee = 25 ∧
    releaseAsset cfg0 200 1 (UINT256 - 1) =
      Except.error EscrowError.ArithmeticOverflow :=
  ⟨by decide, by decide, by decide⟩

/-- C5 amended: whenever `amount * feeBps` stays below `2^256` (for any
configured `feeBps ≤ 10000`, hence for every rate below the spec's 5%
cap), the release succeeds with `fee = floor(amount * feeBps / 10000)`,
`net = amount - fee`, `fee ≤ amount` and `net + fee = amount` exactly;
beyond that bound the checked multiplication reverts rather than
wrapping. The spec's Scenario E values hold concretely. -/
theorem c5_amended_fee_bounds :
    (∀ (cfg : Config) (recipient token amount : Nat),
      amount * cfg.protocolFee < UINT256 → cfg.protocolFee ≤ 10000 →
      releaseAsset cfg recipient token amount =
        Except.ok (payoutTransfers cfg recipient token amount) ∧
      amount * cfg.protocolFee / 10000 ≤ amount ∧
      (amount - amount * cfg.protocolFee / 10000) +
        amount * cfg.protocolFee / 10000 = amount) ∧
    releaseAsset cfg0 200 1 1000000 =
      Except.ok [Transfer.mk 200 1 997500, Transfer.mk 9 1 2500] ∧
    releaseAsset cfg0 200 1 3 = Except.ok [Transfer.mk 200 1 3] := by
  refine ⟨fun cfg recipient token amount hof hbps => ?_, by decide, by decide⟩
  have h1 : amount * cfg.protocolFee ≤ amount * 10000 :=
    Nat.mul_le_mul_left amount hbps
  have hfee : amount * cfg.protocolFee / 10000 ≤ amount := by
    have h2 : amount * cfg.protocolFee / 10000 ≤ amount * 10000 / 10000 :=
      Nat.div_le_div_right h1
    omega
  exact ⟨by unfold releaseAsset; rw [if_pos hof, if_pos hfee], hfee,
    Nat.sub_add_cancel hfee⟩

/-- Witness for C5's amended claim at Scenario E's inputs. -/
theorem c5_amended_fee_bounds_witness :
    (1000000 * cfg0.protocolFee < UINT256) ∧ cfg0.protocolFee ≤ 10000 ∧
    (releaseAsset cfg0 200 1 1000000 =
        Except.ok (payoutTransfers cfg0 200 1 1000000) ∧
      1000000 * cfg0.protocolFee / 10000 ≤ 1000000 ∧
      (1000000 - 1000000 * cfg0.protocolFee / 10000) +
        1000000 * cfg0.protocolFee / 10000 = 1000000) :=
  ⟨by decide, by decide,
   c5_amended_fee_bounds.1 cfg0 200 1 1000000 (by decide) (by decide)⟩

/-- C6 counterexample: confirmations and `cancel` carry no expiry guard.
On the fixture (which expires at time `100`) `sellerConfirm` at `105`,
the completing `buyerConfirm` at `105`, and `cancel` at `150` all
succeed even though the record is past `expiresAt`. -/
theorem c6_confirm_succeeds_after_expiry :
    rFF.expiresAt = 100 ∧
    callOk (sellerConfirm cfg0 rFF 100 105) = true ∧
    callOk (buyerConfirm cfg0 rSC 200 105) = true ∧
    callOk (cancel cfg0 rSD 100 150) = true :=
  ⟨by decide, by decide, by decide, by decide⟩

/-- `_tryComplete` succeeds or fails independently of the timestamp it
would record in `completedAt`. -/
theorem tryComplete_callOk (cfg : Config) (e : Escrow) (n n' : Nat) :
    callOk (tryComplete cfg e n) = callOk (tryComplete cfg e n') := by
  unfold tryComplete
  split
  · cases h1 : sellerLegPayout cfg e <;> cases h2 : buyerLegPayout cfg e <;>
      simp [callOk]
  · rfl

/-- `sellerConfirm` succeeds or fails independently of the block time. -/
theorem sellerConfirm_callOk (cfg : Config) (e : Escrow) (c n n' : Nat) :
    callOk (sellerConfirm cfg e c n) = callOk (sellerConfirm cfg e c n') := by
  unfold sellerConfirm
  split_ifs <;> try rfl
  have h := tryComplete_callOk cfg (updateStatus { e with sellerConfirmed := true }) n n'
  cases hx : tryComplete cfg (updateStatus { e with sellerConfirmed := true }) n with
  | ok p =>
    cases hy : tryComplete cfg (updateStatus { e with sellerConfirmed := true }) n' with
    | ok q => obtain ⟨e2, ts⟩ := p; obtain ⟨e3, ts3⟩ := q; simp [callOk]
    | error err => rw [hx, hy] at h; simp [callOk] at h
  | error err =>
    cases hy : tryComplete cfg (updateStatus { e with sellerConfirmed := true }) n' with
    | ok q => rw [hx, hy] at h; simp [callOk] at h
    | error err2 => simp [callOk]

/-- `buyerConfirm` succeeds or fails independently of the block time. -/
theorem buyerConfirm_callOk (cfg : Config) (e : Escrow) (c n n' : Nat) :
    callOk (buyerConfirm cfg e c n) = callOk (buyerConfirm cfg e c n') := by
  unfold buyerConfirm
  split_ifs <;> try rfl
  have h := tryComplete_callOk cfg (updateStatus { e with buyerConfirmed := true }) n n'
  cases hx : tryComplete cfg (updateStatus { e with buyerConfirmed := true }) n with
  | ok p =>
    cases hy : tryComplete cfg (updateStatus { e with buyerConfirmed := true }) n' with
    | ok q => obtain ⟨e2, ts⟩ := p; obtain ⟨e3, ts3⟩ := q; simp [callOk]
    | error err => rw [hx, hy] at h; simp [callOk] at h
  | error err =>
    cases hy : tryComplete cfg (updateStatus { e with buyerConfirmed := true }) n' with
    | ok q => rw [hx, hy] at h; simp [callOk] at h
    | error err2 => simp [callOk]

/-- C6 amended: only the two deposit operations require the record to be
unexpired (`now ≤ expiresAt`); `sellerConfirm`, `buyerConfirm` and
`cancel` perform no expiry check at all (their success is independent of
the block time, and `cancel`'s result is literally time-independent);
`refundExpired` succeeds only strictly after expiry. -/
theorem c6_amended_expiry_checks :
    (∀ (cfg : Config) (e : Escrow) (c v n : Nat),
      callOk (sellerDeposit cfg e c v n) = true → n ≤ e.expiresAt) ∧
    (∀ (cfg : Config) (e : Escrow) (c v n : Nat),
      callOk (buyerDeposit cfg e c v n) = true → n ≤ e.expiresAt) ∧
    (∀ (cfg : Config) (e : Escrow) (c n : Nat),
      callOk (refundExpired cfg e c n) = true → e.expiresAt < n) ∧
    (∀ (cfg : Config) (e : Escrow) (c n n' : Nat),
      callOk (sellerConfirm cfg e c n) = callOk (sellerConfirm cfg e c n')) ∧
    (∀ (cfg : Config) (e : Escrow) (c n n' : Nat),
      callOk (buyerConfirm cfg e c n) = callOk (buyerConfirm cfg e c n')) ∧
    (∀ (cfg : Config) (e : Escrow) (c n n' : Nat),
      cancel cfg e c n = cancel cfg e c n') := by
  refine ⟨?_, ?_, ?_, sellerConfirm_callOk, buyerConfirm_callOk, fun _ _ _ _ _ => rfl⟩
  · intro cfg e c v n h
    obtain ⟨o, ho⟩ := callOk_iff.mp h
    exact (sellerDeposit_ok ho).2.2.2.1
  · intro cfg e c v n h
    obtain ⟨o, ho⟩ := callOk_iff.mp h
    exact (buyerDeposit_ok ho).2.2.2.1
  · intro cfg e c n h
    obtain ⟨o, ho⟩ := callOk_iff.mp h
    exact (refundExpired_ok ho).2.1

/-- Witness for C6's amended claim on the fixtures. -/
theorem c6_amended_expiry_checks_witness :
    (callOk (sellerDeposit cfg0 eA 100 0 10) = true ∧ 10 ≤ eA.expiresAt) ∧
    (callOk (buyerDeposit cfg0 eA 200 0 11) = true ∧ 11 ≤ eA.expiresAt) ∧
    (callOk (refundExpired cfg0 rSD 7 101) = true ∧ rSD.expiresAt < 101) ∧
    callOk (sellerConfirm cfg0 rFF 100 5) = callOk (sellerConfirm cfg0 rFF 100 105) ∧
    callOk (buyerConfirm cfg0 rSC 200 5) = callOk (buyerConfirm cfg0 rSC 200 105) ∧
    cancel cfg0 rSD 100 5 = cancel cfg0 rSD 100 150 :=
  ⟨⟨by decide, c6_amended_expiry_checks.1 cfg0 eA 100 0 10 (by decide)⟩,
   ⟨by decide, c6_amended_expiry_checks.2.1 cfg0 eA 200 0 11 (by decide)⟩,
   ⟨by decide, c6_amended_expiry_checks.2.2.1 cfg0 rSD 7 101 (by decide)⟩,
   c6_amended_expiry_checks.2.2.2.1 cfg0 rFF 100 5 105,
   c6_amended_expiry_checks.2.2.2.2.1 cfg0 rSC 200 5 105,
   c6_amended_expiry_checks.2.2.2.2.2 cfg0 rSD 100 5 150⟩

/-- No operation ever clears a deposit flag. -/
theorem step_mono_deposited {cfg : Config} {e : Escrow} {op : Op} {o : Outcome}
    (h : step cfg e op = Except.ok o) :
    (e.sellerDeposited = true → o.esc.sellerDeposited = true) ∧
    (e.buyerDeposited = true → o.esc.buyerDeposited = true) := by
  cases op with
  | opSellerDeposit c v n =>
    obtain ⟨_, _, _, _, _, hesc, _⟩ := sellerDeposit_ok h
    rw [hesc]
    exact ⟨fun _ => by simp, fun hb => by simpa using hb⟩
  | opBuyerDeposit c v n =>
    obtain ⟨_, _, _, _, _, hesc, _⟩ := buyerDeposit_ok h
    rw [hesc]
    exact ⟨fun hs => by simpa using hs, fun _ => by simp⟩
  | opSellerConfirm c n =>
    obtain ⟨_, _, _, _, htc⟩ := sellerConfirm_ok h
    rcases tryComplete_ok htc with ⟨_, he2, _⟩ | ⟨_, _, he2, _⟩ <;> rw [he2] <;>
      exact ⟨fun hs => by simpa using hs, fun hb => by simpa using hb⟩
  | opBuyerConfirm c n =>
    obtain ⟨_, _, _, _, htc⟩ := buyerConfirm_ok h
    rcases tryComplete_ok htc with ⟨_, he2, _⟩ | ⟨_, _, he2, _⟩ <;> rw [he2] <;>
      exact ⟨fun hs => by simpa using hs, fun hb => by simpa using hb⟩
  | opCancel c n =>
    obtain ⟨_, _, _, _, _, hesc⟩ := @cancel_ok cfg e c n o h
    rw [hesc]
    exact ⟨fun hs => hs, fun hb => hb⟩
  | opRefundExpired c n =>
    obtain ⟨_, _, _, _, _, hesc⟩ := @refundExpired_ok cfg e c n o h
    rw [hesc]
    exact ⟨fun hs => hs, fun hb => hb⟩

/-- Over any call sequence, a set seller-deposit flag stays set. -/
theorem runOps_mono_sellerDeposited (cfg : Config) (e : Escrow)
    (log : List Transfer) (ops : List Op) (h : e.sellerDeposited = true) :
    ((runOps cfg e log ops).1).sellerDeposited = true := by
  induction ops generalizing e log with
  | nil => exact h
  | cons op rest ih =>
    unfold runOps
    cases hs : step cfg e op with
    | error err => exact ih e log h
    | ok o => exact ih o.esc (log ++ o.moneyOut) ((step_mono_deposited hs).1 h)

/-- Over any call sequence, a set buyer-deposit flag stays set. -/
theorem runOps_mono_buyerDeposited (cfg : Config) (e : Escrow)
    (log : List Transfer) (ops : List Op) (h : e.buyerDeposited = true) :
    ((runOps cfg e log ops).1).buyerDeposited = true := by
  induction ops generalizing e log with
  | nil => exact h
  | cons op rest ih =>
    unfold runOps
    cases hs : step cfg e op with
    | error err => exact ih e log h
    | ok o => exact ih o.esc (log ++ o.moneyOut) ((step_mono_deposited hs).2 h)

/-- C7 (no double deposit): a leg's `deposited` flag is monotone — once
`true` it stays `true` across any call sequence, so it transitions
`false → true` at most once — and a repeated deposit attempt by the
respective party on an existing, already-funded leg always reverts with
`AlreadyDeposited` (hence without any transfer: a revert produces no
outcome at all). -/
theorem c7_no_double_deposit :
    (∀ (cfg : Config) (e : Escrow) (log : List Transfer) (ops : List Op),
      e.sellerDeposited = true → ((runOps cfg e log ops).1).sellerDeposited = true) ∧
    (∀ (cfg : Config) (e : Escrow) (log : List Transfer) (ops : List Op),
      e.buyerDeposited = true → ((runOps cfg e log ops).1).buyerDeposited = true) ∧
    (∀ (cfg : Config) (e : Escrow) (c v n : Nat),
      e.seller ≠ 0 → c = e.seller → e.sellerDeposited = true →
      sellerDeposit cfg e c v n = Except.error EscrowError.AlreadyDeposited) ∧
    (∀ (cfg : Config) (e : Escrow) (c v n : Nat),
      e.buyer ≠ 0 → c = e.buyer → e.buyerDeposited = true →
      buyerDeposit cfg e c v n = Except.error EscrowError.AlreadyDeposited) := by
  refine ⟨runOps_mono_sellerDeposited, runOps_mono_buyerDeposited, ?_, ?_⟩
  · intro cfg e c v n hs0 hc hd
    unfold sellerDeposit
    rw [if_neg hs0, if_neg (not_not_intro hc), if_pos hd]
  · intro cfg e c v n hb0 hc hd
    unfold buyerDeposit
    rw [if_neg hb0, if_neg (not_not_intro hc), if_pos hd]

/-- Witness for C7 on the fixtures: the flag survives a later call
sequence, and the second deposit on each funded leg reverts. -/
theorem c7_no_double_deposit_witness :
    (rSD.sellerDeposited = true ∧
      ((runOps cfg0 rSD [] [Op.opBuyerDeposit 200 0 11,
          Op.opCancel 100 12]).1).sellerDeposited = true) ∧
    (rFF.buyerDeposited = true ∧
      ((runOps cfg0 rFF [] [Op.opSellerConfirm 100 12]).1).buyerDeposited = true) ∧
    (rFF.seller ≠ 0 ∧ (100 : Nat) = rFF.seller ∧ rFF.sellerDeposited = true ∧
      sellerDeposit cfg0 rFF 100 0 12 = Except.error EscrowError.AlreadyDeposited) ∧
    (rFF.buyer ≠ 0 ∧ (200 : Nat) = rFF.buyer ∧ rFF.buyerDeposited = true ∧
      buyerDeposit cfg0 rFF 200 0 12 = Except.error EscrowError.AlreadyDeposited) :=
  ⟨⟨by decide, c7_no_double_deposit.1 cfg0 rSD []
      [Op.opBuyerDeposit 200 0 11, Op.opCancel 100 12] (by decide)⟩,
   ⟨by decide, c7_no_double_deposit.2.1 cfg0 rFF [] [Op.opSellerConfirm 100 12] (by decide)⟩,
   ⟨by decide, by decide, by decide,
      c7_no_double_deposit.2.2.1 cfg0 rFF 100 0 12 (by decide) (by decide) (by decide)⟩,
   ⟨by decide, by decide, by decide,
      c7_no_double_deposit.2.2.2 cfg0 rFF 200 0 12 (by decide) (by decide) (by decide)⟩⟩

/-- A successful refund block returns the seller's deposited local leg to
the seller net of the protocol fee, and sends the fee (when positive) to
the fee recipient. -/
theorem refundLegs_mem_seller {cfg : Config} {e : Escrow} {ts : List Transfer}
    (h : refundLegs cfg e = Except.ok ts)
    (hd : e.sellerDeposited = true) (hc : e.sellerChainId = cfg.thisChainId) :
    Transfer.mk e.seller e.sellerToken
      (e.sellerAmount - e.sellerAmount * cfg.protocolFee / 10000) ∈ ts ∧
    (0 < e.sellerAmount * cfg.protocolFee / 10000 →
      Transfer.mk cfg.feeRecipient e.sellerToken
        (e.sellerAmount * cfg.protocolFee / 10000) ∈ ts) := by
  unfold refundLegs at h
  rw [if_pos ⟨hd, hc⟩] at h
  split at h <;> try exact Except.noConfusion h
  next t1 t2 h1 h2 =>
    injection h with h
    subst h
    obtain ⟨ht1, _, _⟩ := releaseAsset_ok h1
    subst ht1
    refine ⟨List.mem_append_left _ (by simp [payoutTransfers]), fun hf => ?_⟩
    exact List.mem_append_left _ (by simp [payoutTransfers, if_pos hf])

/-- Symmetric fact for the buyer's deposited local leg. -/
theorem refundLegs_mem_buyer {cfg : Config} {e : Escrow} {ts : List Transfer}
    (h : refundLegs cfg e = Except.ok ts)
    (hd : e.buyerDeposited = true) (hc : e.buyerChainId = cfg.thisChainId) :
    Transfer.mk e.buyer e.buyerToken
      (e.buyerAmount - e.buyerAmount * cfg.protocolFee / 10000) ∈ ts ∧
    (0 < e.buyerAmount * cfg.protocolFee / 10000 →
      Transfer.mk cfg.feeRecipient e.buyerToken
        (e.buyerAmount * cfg.protocolFee / 10000) ∈ ts) := by
  unfold refundLegs at h
  split at h <;> try exact Except.noConfusion h
  next t1 t2 h1 h2 =>
    rw [if_pos ⟨hd, hc⟩] at h2
    injection h with h
    subst h
    obtain ⟨ht2, _, _⟩ := releaseAsset_ok h2
    subst ht2
    refine ⟨List.mem_append_right _ (by simp [payoutTransfers]), fun hf => ?_⟩
    exact List.mem_append_right _ (by simp [payoutTransfers, if_pos hf])

/-- C8: `refundExpired` ignores the caller entirely (permissionless); on
an existing record it reverts with `InvalidStatus` whenever `now` has not
strictly passed `expiresAt` or the status is already
`Completed`/`Refunded`; and a success certifies strict expiry, a
non-`Completed`/`Refunded` prior status, the `Refunded` final status, and
the return of each deposited locally-hosted leg to its original
depositor (seller's leg to the seller, buyer's leg to the buyer). -/
theorem c8_refundExpired_permissionless_refund :
    (∀ (cfg : Config) (e : Escrow) (c c' n : Nat),
      refundExpired cfg e c n = refundExpired cfg e c' n) ∧
    (∀ (cfg : Config) (e : Escrow) (c n : Nat), e.seller ≠ 0 →
      (n ≤ e.expiresAt ∨ e.status = EscrowStatus.Completed ∨
        e.status = EscrowStatus.Refunded) →
      refundExpired cfg e c n = Except.error EscrowError.InvalidStatus) ∧
    (∀ (cfg : Config) (e : Escrow) (c n : Nat) (o : Outcome),
      refundExpired cfg e c n = Except.ok o →
      e.expiresAt < n ∧ e.status ≠ EscrowStatus.Completed ∧
      e.status ≠ EscrowStatus.Refunded ∧
      o.esc = { e with status := EscrowStatus.Refunded } ∧
      (e.sellerDeposited = true → e.sellerChainId = cfg.thisChainId →
        Transfer.mk e.seller e.sellerToken
          (e.sellerAmount - e.sellerAmount * cfg.protocolFee / 10000) ∈ o.moneyOut) ∧
      (e.buyerDeposited = true → e.buyerChainId = cfg.thisChainId →
        Transfer.mk e.buyer e.buyerToken
          (e.buyerAmount - e.buyerAmount * cfg.protocolFee / 10000) ∈ o.moneyOut)) := by
  refine ⟨fun cfg e c c' n => rfl, ?_, ?_⟩
  · intro cfg e c n hs0 hcond
    unfold refundExpired
    rw [if_neg hs0]
    by_cases hle : n ≤ e.expiresAt
    · rw [if_pos hle]
    · rw [if_neg hle, if_pos (hcond.resolve_left hle)]
  · intro cfg e c n o h
    obtain ⟨_, hlt, hC, hR, hlegs, hesc⟩ := refundExpired_ok h
    exact ⟨hlt, hC, hR, hesc,
      fun hd hc => (refundLegs_mem_seller hlegs hd hc).1,
      fun hd hc => (refundLegs_mem_buyer hlegs hd hc).1⟩

/-- Witness for C8 on the fixtures: caller-independence, a rejected call
before expiry, and a successful third-party refund of `rSD`. -/
theorem c8_refundExpired_permissionless_refund_witness :
    refundExpired cfg0 rSD 7 101 = refundExpired cfg0 rSD 999 101 ∧
    (rSD.seller ≠ 0 ∧
      refundExpired cfg0 rSD 7 50 = Except.error EscrowError.InvalidStatus) ∧
    (refundExpired cfg0 rSD 7 101 =
        Except.ok (Outcome.mk { rSD with status := EscrowStatus.Refunded } []
          [Transfer.mk 100 1 9975, Transfer.mk 9 1 25]) ∧
      (rSD.expiresAt < 101 ∧ rSD.status ≠ EscrowStatus.Completed ∧
        rSD.status ≠ EscrowStatus.Refunded ∧
        Outcome.mk { rSD with status := EscrowStatus.Refunded } []
            [Transfer.mk 100 1 9975, Transfer.mk 9 1 25] =
          Outcome.mk { rSD with status := EscrowStatus.Refunded } []
            [Transfer.mk 100 1 9975, Transfer.mk 9 1 25] ∧
        Transfer.mk rSD.seller rSD.sellerToken
          (rSD.sellerAmount - rSD.sellerAmount * cfg0.protocolFee / 10000) ∈
            [Transfer.mk 100 1 9975, Transfer.mk 9 1 25])) :=
  ⟨c8_refundExpired_permissionless_refund.1 cfg0 rSD 7 999 101,
   ⟨by decide,
    c8_refundExpired_permissionless_refund.2.1 cfg0 rSD 7 50 (by decide)
      (Or.inl (by decide))⟩,
   ⟨by decide, by
    have h := c8_refundExpired_permissionless_refund.2.2 cfg0 rSD 7 101
      (Outcome.mk { rSD with status := EscrowStatus.Refunded } []
        [Transfer.mk 100 1 9975, Transfer.mk 9 1 25]) (by decide)
    exact ⟨h.1, h.2.1, h.2.2.1, rfl, h.2.2.2.2.1 (by decide) (by decide)⟩⟩⟩

/-- C9 (implicit fee-on-refund behaviour): both refund paths route
deposits through `_releaseAsset`, so a deposited, locally-hosted leg is
returned to its depositor net of the protocol fee, with the (positive)
fee sent to the fee recipient — not as the full deposited amount. -/
theorem c9_refund_deducts_fee :
    (∀ (cfg : Config) (e : Escrow) (c n : Nat) (o : Outcome),
      cancel cfg e c n = Except.ok o →
      (e.sellerDeposited = true → e.sellerChainId = cfg.thisChainId →
        Transfer.mk e.seller e.sellerToken
          (e.sellerAmount - e.sellerAmount * cfg.protocolFee / 10000) ∈ o.moneyOut ∧
        (0 < e.sellerAmount * cfg.protocolFee / 10000 →
          Transfer.mk cfg.feeRecipient e.sellerToken
            (e.sellerAmount * cfg.protocolFee / 10000) ∈ o.moneyOut)) ∧
      (e.buyerDeposited = true → e.buyerChainId = cfg.thisChainId →
        Transfer.mk e.buyer e.buyerToken
          (e.buyerAmount - e.buyerAmount * cfg.protocolFee / 10000) ∈ o.moneyOut ∧
        (0 < e.buyerAmount * cfg.protocolFee / 10000 →
          Transfer.mk cfg.feeRecipient e.buyerToken
            (e.buyerAmount * cfg.protocolFee / 10000) ∈ o.moneyOut))) ∧
    (∀ (cfg : Config) (e : Escrow) (c n : Nat) (o : Outcome),
      refundExpired cfg e c n = Except.ok o →
      (e.sellerDeposited = true → e.sellerChainId = cfg.thisChainId →
        Transfer.mk e.seller e.sellerToken
          (e.sellerAmount - e.sellerAmount * cfg.protocolFee / 10000) ∈ o.moneyOut ∧
        (0 < e.sellerAmount * cfg.protocolFee / 10000 →
          Transfer.mk cfg.feeRecipient e.sellerToken
            (e.sellerAmount * cfg.protocolFee / 10000) ∈ o.moneyOut)) ∧
      (e.buyerDeposited = true → e.buyerChainId = cfg.thisChainId →
        Transfer.mk e.buyer e.buyerToken
          (e.buyerAmount - e.buyerAmount * cfg.protocolFee / 10000) ∈ o.moneyOut ∧
        (0 < e.buyerAmount * cfg.protocolFee / 10000 →
          Transfer.mk cfg.feeRecipient e.buyerToken
            (e.buyerAmount * cfg.protocolFee / 10000) ∈ o.moneyOut))) := by
  constructor
  · intro cfg e c n o h
    obtain ⟨_, _, _, _, hlegs, _⟩ := @cancel_ok cfg e c n o h
    exact ⟨fun hd hc => refundLegs_mem_seller hlegs hd hc,
           fun hd hc => refundLegs_mem_buyer hlegs hd hc⟩
  · intro cfg e c n o h
    obtain ⟨_, _, _, _, hlegs, _⟩ := @refundExpired_ok cfg e c n o h
    exact ⟨fun hd hc => refundLegs_mem_seller hlegs hd hc,
           fun hd hc => refundLegs_mem_buyer hlegs hd hc⟩

/-- Witness for C9: cancelling the seller-funded fixture refunds
`10000 - 25 = 9975` to the seller and `25` to the fee recipient. -/
theorem c9_refund_deducts_fee_witness :
    cancel cfg0 rSD 100 50 =
      Except.ok (Outcome.mk { rSD with status := EscrowStatus.Cancelled } []
        [Transfer.mk 100 1 9975, Transfer.mk 9 1 25]) ∧
    rSD.sellerDeposited = true ∧ rSD.sellerChainId = cfg0.thisChainId ∧
    (Transfer.mk rSD.seller rSD.sellerToken
        (rSD.sellerAmount - rSD.sellerAmount * cfg0.protocolFee / 10000) ∈
        [Transfer.mk 100 1 9975, Transfer.mk 9 1 25] ∧
      (0 < rSD.sellerAmount * cfg0.protocolFee / 10000 →
        Transfer.mk cfg0.feeRecipient rSD.sellerToken
          (rSD.sellerAmount * cfg0.protocolFee / 10000) ∈
          [Transfer.mk 100 1 9975, Transfer.mk 9 1 25])) :=
  ⟨by decide, by decide, by decide,
   (c9_refund_deducts_fee.1 cfg0 rSD 100 50
      (Outcome.mk { rSD with status := EscrowStatus.Cancelled } []
        [Transfer.mk 100 1 9975, Transfer.mk 9 1 25]) (by decide)).1
     (by decide) (by decide)⟩

/-- C10 (implicit native-deposit behaviour): for a native-asset leg a
deposit succeeds for any attached value at least the declared amount; the
whole attached value (excess included) is kept by the contract (it is the
single inbound transfer, and nothing is paid back out), while the record
continues to store only the declared leg amount. -/
theorem c10_native_excess_retained :
    (∀ (cfg : Config) (e : Escrow) (c v n : Nat),
      e.seller ≠ 0 → c = e.seller → e.sellerDeposited = false →
      n ≤ e.expiresAt → e.sellerChainId = cfg.thisChainId → e.sellerToken = 0 →
      e.sellerAmount ≤ v →
      sellerDeposit cfg e c v n =
        Except.ok (Outcome.mk (updateStatus { e with sellerDeposited := true })
          [Transfer.mk c 0 v] []) ∧
      (updateStatus { e with sellerDeposited := true }).sellerAmount
        = e.sellerAmount) ∧
    (∀ (cfg : Config) (e : Escrow) (c v n : Nat),
      e.buyer ≠ 0 → c = e.buyer → e.buyerDeposited = false →
      n ≤ e.expiresAt → e.buyerChainId = cfg.thisChainId → e.buyerToken = 0 →
      e.buyerAmount ≤ v →
      buyerDeposit cfg e c v n =
        Except.ok (Outcome.mk (updateStatus { e with buyerDeposited := true })
          [Transfer.mk c 0 v] []) ∧
      (updateStatus { e with buyerDeposited := true }).buyerAmount
        = e.buyerAmount) := by
  constructor
  · intro cfg e c v n hs0 hc hd hn hcid htok hv
    refine ⟨?_, rfl⟩
    unfold sellerDeposit
    rw [if_neg hs0, if_neg (not_not_intro hc), if_neg (by simp [hd]),
      if_neg (Nat.not_lt.mpr hn), if_neg (not_not_intro hcid), if_pos htok,
      if_neg (Nat.not_lt.mpr hv)]
  · intro cfg e c v n hb0 hc hd hn hcid htok hv
    refine ⟨?_, rfl⟩
    unfold buyerDeposit
    rw [if_neg hb0, if_neg (not_not_intro hc), if_neg (by simp [hd]),
      if_neg (Nat.not_lt.mpr hn), if_neg (not_not_intro hcid), if_pos htok,
      if_neg (Nat.not_lt.mpr hv)]

/-- Witness for C10: on the native-leg fixtures, attaching `10007`
against a declared `10000` (resp. `40123` against `40000`) succeeds,
keeps the full attached value and pays nothing back. -/
theorem c10_native_excess_retained_witness :
    (eN.seller ≠ 0 ∧ (100 : Nat) = eN.seller ∧ eN.sellerDeposited = false ∧
      (10 : Nat) ≤ eN.expiresAt ∧ eN.sellerChainId = cfg0.thisChainId ∧
      eN.sellerToken = 0 ∧ eN.sellerAmount ≤ 10007 ∧
      (sellerDeposit cfg0 eN 100 10007 10 =
          Except.ok (Outcome.mk (updateStatus { eN with sellerDeposited := true })
            [Transfer.mk 100 0 10007] []) ∧
        (updateStatus { eN with sellerDeposited := true }).sellerAmount
          = eN.sellerAmount)) ∧
    (eNB.buyer ≠ 0 ∧ (200 : Nat) = eNB.buyer ∧ eNB.buyerDeposited = false ∧
      (10 : Nat) ≤ eNB.expiresAt ∧ eNB.buyerChainId = cfg0.thisChainId ∧
      eNB.buyerToken = 0 ∧ eNB.buyerAmount ≤ 40123 ∧
      (buyerDeposit cfg0 eNB 200 40123 10 =
          Except.ok (Outcome.mk (updateStatus { eNB with buyerDeposited := true })
            [Transfer.mk 200 0 40123] []) ∧
        (updateStatus { eNB with buyerDeposited := true }).buyerAmount
          = eNB.buyerAmount)) :=
  ⟨⟨by decide, by decide, by decide, by decide, by decide, by decide, by decide,
    c10_native_excess_retained.1 cfg0 eN 100 10007 10 (by decide) (by decide)
      (by decide) (by decide) (by decide) (by decide) (by decide)⟩,
   ⟨by decide, by decide, by decide, by decide, by decide, by decide, by decide,
    c10_native_excess_retained.2 cfg0 eNB 200 40123 10 (by decide) (by decide)
      (by decide) (by decide) (by decide) (by decide) (by decide)⟩⟩
